import Mathlib

/-!
# Verification of the icmp_proxy ICMP tunnel against its specification

Shallow embedding of the Go sources of the `icmp_proxy` repository:

* the vendored ICMP codec (`pkg icmp`: `checksum`, `Message.Marshal` in its
  checksum-computing and zero-checksum variants, `ParseMessage`);
* the responder-side chunker (`server/main.go`: `sendResponseInChunks`);
* the initiator-side reassembly loop (`client/main.go`: `sendICMPRequest`);
* the session table (`client/main.go`: `responseMap` with `Get`/`Set`/`Delete`)
  and identifier allocation (`handleHTTPProxyRequest`);
* the dispatcher loop (`client/main.go`: `listenForICMPResponses`).

Bytes are modelled as `Nat` values (always < 256 where produced by the code),
machine integers as `Nat` with explicit reduction modulo `2^16` / `2^32`
where the Go code truncates. Channels are modelled as bounded queues; the
blocking send `ch <- reply` on a bounded channel is modelled as a partial
step (`Option`): `none` means the send is not enabled (the producer blocks).
-/

namespace IcmpProxy

/-- ICMP Echo body, mirroring `icmp.Echo` (`ID`, `Seq`, `Data`). `ID` and
`Seq` are Go `int`s holding values in `0 .. 65535` everywhere the program
builds them; payload bytes are `Nat`s below 256. -/
structure Echo where
  id : Nat
  seq : Nat
  data : List Nat
deriving DecidableEq

/-- Parsed ICMP message, mirroring `icmp.Message` (`Type`, `Code`, `Body`).
The body is always an `Echo` in this codec (`ParseMessage` constructs one
unconditionally). -/
structure Message where
  type : Nat
  code : Nat
  echo : Echo
deriving DecidableEq

/-- Mirrors `MaxChunkSize = 1400` from `server/main.go`. -/
def MaxChunkSize : Nat := 1400

/-- The chunk-emission loop of `sendResponseInChunks`
(`for seq, i := 0, 0; i < totalLen; i, seq = i+MaxChunkSize, seq+1`):
slices `data` into contiguous chunks of at most `MaxChunkSize` bytes and
emits one Echo Reply per chunk, sequence numbers counting up from the
initial `seq` argument (the Go loop starts it at 0). -/
def sendChunksLoop (requestID : Nat) (data : List Nat) (seq : Nat) : List Echo :=
  if h : data = [] then []
  else
    ⟨requestID, seq, data.take MaxChunkSize⟩ ::
      sendChunksLoop requestID (data.drop MaxChunkSize) (seq + 1)
termination_by data.length
decreasing_by
  simp only [List.length_drop]
  have := List.length_pos.mpr h
  simp only [MaxChunkSize]
  omega

/-- Unfolding equation of `sendChunksLoop` on a non-empty buffer. -/
theorem sendChunksLoop_cons (requestID : Nat) (data : List Nat) (seq : Nat)
    (h : data ≠ []) :
    sendChunksLoop requestID data seq =
      ⟨requestID, seq, data.take MaxChunkSize⟩ ::
        sendChunksLoop requestID (data.drop MaxChunkSize) (seq + 1) := by
  rw [sendChunksLoop]
  exact dif_neg h

/-- Unfolding equation of `sendChunksLoop` on the empty buffer. -/
theorem sendChunksLoop_nil (requestID seq : Nat) :
    sendChunksLoop requestID [] seq = [] := by
  rw [sendChunksLoop]
  rfl

/-- Mirrors `sendResponseInChunks` (`server/main.go`): the sequence of Echo
Reply bodies written for a response `data` — every data chunk (sequence
numbers starting at 0 in the code), followed by the final zero-length
terminator packet with `Seq = len(data)/MaxChunkSize + 1`. Socket writes
are assumed to succeed (the claims quantify over fully delivered runs). -/
def sendResponseInChunks (requestID : Nat) (data : List Nat) : List Echo :=
  sendChunksLoop requestID data 0 ++
    [⟨requestID, data.length / MaxChunkSize + 1, []⟩]

/-- Insertion step of sorting reply fragments by ascending `Seq`, modelling
the `sort.Slice(responsePackets, ...)` call in `sendICMPRequest`. -/
def insertBySeq (p : Echo) : List Echo → List Echo
  | [] => [p]
  | q :: rest => if p.seq ≤ q.seq then p :: q :: rest else q :: insertBySeq p rest

/-- Sorts reply fragments by ascending `Seq` (the comparison used by the Go
`sort.Slice` call: `responsePackets[i].Seq < responsePackets[j].Seq`). -/
def sortBySeq : List Echo → List Echo
  | [] => []
  | p :: rest => insertBySeq p (sortBySeq rest)

/-- The receive loop of `sendICMPRequest` (`client/main.go`): consume reply
fragments in arrival order; drop any fragment with `Seq == 0` (kernel
auto-reply suppression); a fragment with empty payload ends the loop, and
the collected fragments are sorted by `Seq` and their payloads joined.
`none` models exhausting the deliveries without a terminator (the 30 s
timeout path). -/
def reassembleLoop : List Echo → List Echo → Option (List Nat)
  | [], _ => none
  | p :: rest, acc =>
    if p.seq = 0 then reassembleLoop rest acc
    else if p.data = [] then some (((sortBySeq acc).map Echo.data).flatten)
    else reassembleLoop rest (acc ++ [p])

/-- Claim C1 (code bug evaluation): chunking the one-byte response `[65]`
on the responder and reassembling on the initiator yields `some []`, not
`some [65]` — the responder's first data chunk carries sequence 0 and the
initiator drops every sequence-0 fragment, so the first chunk of every
non-empty response is lost. -/
theorem chunk_reassemble_loses_first_chunk :
    reassembleLoop (sendResponseInChunks 7 [65]) [] = some [] ∧
      some ([] : List Nat) ≠ some [65] := by
  have h1 : sendResponseInChunks 7 [65] = [⟨7, 0, [65]⟩, ⟨7, 1, []⟩] := by
    rw [sendResponseInChunks, sendChunksLoop_cons 7 [65] 0 (by decide),
      show ([65] : List Nat).drop MaxChunkSize = [] from rfl, sendChunksLoop_nil]
    rfl
  rw [h1]
  exact ⟨rfl, by decide⟩

/-- Claim C2 (code bug evaluation): for the non-empty response `[1]` the
responder emits its first (and only) data chunk with sequence 0, violating
the spec's "responses always start at 1 / never sequence 0" policy; the
terminator follows at sequence 1. -/
theorem first_chunk_has_seq_zero :
    sendResponseInChunks 9 [1] = [⟨9, 0, [1]⟩, ⟨9, 1, []⟩] ∧
      (Echo.mk 9 0 [1]).seq = 0 := by
  have h1 : sendResponseInChunks 9 [1] = [⟨9, 0, [1]⟩, ⟨9, 1, []⟩] := by
    rw [sendResponseInChunks, sendChunksLoop_cons 9 [1] 0 (by decide),
      show ([1] : List Nat).drop MaxChunkSize = [] from rfl, sendChunksLoop_nil]
    rfl
  exact ⟨h1, rfl⟩

/-- Claim C3 (code bug evaluation): for a response of length exactly
`MaxChunkSize` (1400 bytes) the responder emits its single data fragment at
sequence 0 (the claim says 1) and the terminator at sequence 2 — two past
the last data chunk rather than one. -/
theorem max_chunk_response_fragments :
    sendResponseInChunks 7 (List.replicate 1400 3) =
      [⟨7, 0, List.replicate 1400 3⟩, ⟨7, 2, []⟩] := by
  rw [sendResponseInChunks,
    sendChunksLoop_cons 7 (List.replicate 1400 3) 0
      (by simp only [ne_eq, List.replicate_eq_nil_iff]; norm_num),
    show (List.replicate 1400 3).drop MaxChunkSize = [] by
      simp only [MaxChunkSize, List.drop_replicate]; norm_num,
    sendChunksLoop_nil]
  simp only [MaxChunkSize, List.take_replicate, List.length_replicate, min_self,
    List.cons_append, List.nil_append]

/-! ## ICMP codec (`pkg icmp`)

The repository carries two snapshots of the vendored codec: one whose
`Message.Marshal` computes the RFC 792 one's-complement checksum and one
("simplified") that leaves the checksum field zero. `ParseMessage` is the
same in both. -/

/-- The accumulation loop of the Go `checksum` function: sum 16-bit
big-endian words into a `uint32` accumulator (reduction modulo `2^32` at
every addition), a trailing odd byte contributing `byte << 8`. -/
def sumWords : List Nat → Nat → Nat
  | a :: b :: rest, acc => sumWords rest ((acc + (a * 256 + b)) % 4294967296)
  | [a], acc => (acc + a * 256) % 4294967296
  | [], acc => acc

/-- The exact (unbounded) word sum of a byte list; `sumWords` equals this
sum reduced modulo `2^32` (`sumWords_eq`). -/
def plainSum : List Nat → Nat
  | a :: b :: rest => a * 256 + b + plainSum rest
  | [a] => a * 256
  | [] => 0

/-- Accumulating words modulo `2^32` at each step computes the plain word
sum modulo `2^32`. -/
theorem sumWords_eq (l : List Nat) (acc : Nat) (h : acc < 4294967296) :
    sumWords l acc = (acc + plainSum l) % 4294967296 := by
  match l with
  | [] => simp [sumWords, plainSum, Nat.mod_eq_of_lt h]
  | [a] => simp [sumWords, plainSum]
  | a :: b :: rest =>
    rw [show sumWords (a :: b :: rest) acc =
        sumWords rest ((acc + (a * 256 + b)) % 4294967296) from rfl,
      sumWords_eq rest _ (Nat.mod_lt _ (by norm_num)),
      Nat.mod_add_mod, show plainSum (a :: b :: rest) = a * 256 + b + plainSum rest from rfl,
      Nat.add_assoc]

/-- The carry-fold loop of the Go `checksum` function:
`for (sum >> 16) > 0 { sum = (sum >> 16) + (sum & 0xffff) }`. -/
def foldCarry (n : Nat) : Nat :=
  if n < 65536 then n else foldCarry (n / 65536 + n % 65536)
termination_by n
decreasing_by omega

/-- Facts about the carry fold: its result is a 16-bit value congruent to
the input modulo `65535`, bounded by the input, and positive on positive
input. -/
theorem foldCarry_props (n : Nat) :
    foldCarry n < 65536 ∧ foldCarry n % 65535 = n % 65535 ∧ foldCarry n ≤ n ∧
      (0 < n → 0 < foldCarry n) := by
  induction n using Nat.strong_induction_on with
  | _ n ih =>
    rw [foldCarry]
    split
    · exact ⟨by omega, rfl, Nat.le_refl n, fun h => h⟩
    · have hlt : n / 65536 + n % 65536 < n := by omega
      obtain ⟨h1, h2, h3, h4⟩ := ih _ hlt
      exact ⟨h1, by omega, by omega, fun _ => h4 (by omega)⟩

/-- A positive multiple of `65535` carry-folds to exactly `65535`. -/
theorem foldCarry_multiple (n : Nat) (hpos : 0 < n) (hmod : n % 65535 = 0) :
    foldCarry n = 65535 := by
  obtain ⟨h1, h2, h3, h4⟩ := foldCarry_props n
  have := h4 hpos
  omega

/-- Mirrors the Go `checksum`: fold the `uint32` word sum and complement.
After the fold the value is at most `65535`, so `^uint16(sum)` equals
`65535 - sum`. -/
def checksum (b : List Nat) : Nat := 65535 - foldCarry (sumWords b 0)

/-- Core arithmetic fact behind checksum correctness: adding the computed
complement back into the word sum yields a positive multiple of `65535`
that never overflows `2^32`, so the recomputed checksum is `0`. -/
theorem checksum_complement_fold (T : Nat) :
    65535 - foldCarry ((T + (65535 - foldCarry (T % 4294967296))) % 4294967296) = 0 := by
  obtain ⟨h1, h2, h3, h4⟩ := foldCarry_props (T % 4294967296)
  have hv32 : T % 4294967296 < 4294967296 := Nat.mod_lt _ (by norm_num)
  have hm : (T + (65535 - foldCarry (T % 4294967296))) % 4294967296 =
      T % 4294967296 + (65535 - foldCarry (T % 4294967296)) := by
    rw [Nat.add_mod,
      Nat.mod_eq_of_lt (show 65535 - foldCarry (T % 4294967296) < 4294967296 by omega)]
    exact Nat.mod_eq_of_lt (by omega)
  rw [hm, foldCarry_multiple _ (by omega) (by omega)]

/-- Writing the checksum of the zero-checksum message into the checksum
slot (bytes 2 and 3) produces a message whose recomputed checksum is 0. -/
theorem checksum_cons_insert (t c : Nat) (l : List Nat) :
    checksum (t :: c :: checksum (t :: c :: 0 :: 0 :: l) / 256 ::
      checksum (t :: c :: 0 :: 0 :: l) % 256 :: l) = 0 := by
  have hcs : checksum (t :: c :: 0 :: 0 :: l) =
      65535 - foldCarry (plainSum (t :: c :: 0 :: 0 :: l) % 4294967296) := by
    rw [checksum, sumWords_eq _ 0 (by norm_num), Nat.zero_add]
  have hplain2 : plainSum (t :: c :: checksum (t :: c :: 0 :: 0 :: l) / 256 ::
      checksum (t :: c :: 0 :: 0 :: l) % 256 :: l) =
      plainSum (t :: c :: 0 :: 0 :: l) + checksum (t :: c :: 0 :: 0 :: l) := by
    simp only [plainSum]
    omega
  rw [checksum, sumWords_eq _ 0 (by norm_num), Nat.zero_add, hplain2, hcs]
  exact checksum_complement_fold (plainSum (t :: c :: 0 :: 0 :: l))

/-- High byte of a value truncated to `uint16`, as written by
`binary.BigEndian.PutUint16`. -/
def u16hi (x : Nat) : Nat := x % 65536 / 256

/-- Low byte of a value truncated to `uint16`. -/
def u16lo (x : Nat) : Nat := x % 256

/-- Mirrors `Echo.Marshal`: `[ID_hi, ID_lo, Seq_hi, Seq_lo] ++ Data`. -/
def echoMarshal (e : Echo) : List Nat :=
  u16hi e.id :: u16lo e.id :: u16hi e.seq :: u16lo e.seq :: e.data

/-- Mirrors the zero-checksum variant of `Message.Marshal` (the snapshot
whose comment says the checksum is left uncomputed): type byte, code byte,
two zero checksum bytes, then the Echo body. `make([]byte, ...)` zeroes
the buffer, so the checksum field is 0. This is also exactly the buffer
over which the checksum variant computes its checksum. -/
def marshalZero (typ code : Nat) (e : Echo) : List Nat :=
  typ % 256 :: code % 256 :: 0 :: 0 :: echoMarshal e

/-- Mirrors the checksum-computing variant of `Message.Marshal`: build the
message with a zeroed checksum field, compute `checksum` over it, and
store the result big-endian at bytes 2 and 3. -/
def marshalMessage (typ code : Nat) (e : Echo) : List Nat :=
  typ % 256 :: code % 256 :: checksum (marshalZero typ code e) / 256 ::
    checksum (marshalZero typ code e) % 256 :: echoMarshal e

/-- The big-endian 16-bit value stored in the checksum field (bytes 2, 3)
of an encoded message. -/
def storedChecksum (b : List Nat) : Nat := b.getD 2 0 * 256 + b.getD 3 0

/-- Error kind of `ParseMessage`; `tooShort` models the Go
`errors.New("message too short")`. -/
inductive CodecError where
  | tooShort
deriving DecidableEq

/-- Mirrors `ParseMessage`: inputs shorter than 8 bytes fail; otherwise
read type from byte 0, code from byte 1, identifier from bytes 4-5,
sequence from bytes 6-7 (big-endian) and take the rest as payload. The
checksum field (bytes 2-3) is never examined. -/
def ParseMessage (b : List Nat) : Except CodecError Message :=
  match b with
  | t :: c :: _ :: _ :: i1 :: i2 :: s1 :: s2 :: rest =>
    Except.ok ⟨t, c, ⟨i1 * 256 + i2, s1 * 256 + s2, rest⟩⟩
  | _ => Except.error CodecError.tooShort

/-- Parsing an encoded message recovers type and code modulo 256 and
identifier and sequence modulo `2^16`, and the payload verbatim; the
stored checksum bytes are irrelevant to the result. -/
theorem parseMessage_marshalMessage (typ code : Nat) (e : Echo) :
    ParseMessage (marshalMessage typ code e) =
      Except.ok ⟨typ % 256, code % 256, ⟨e.id % 65536, e.seq % 65536, e.data⟩⟩ := by
  simp only [marshalMessage, echoMarshal, ParseMessage, u16hi, u16lo,
    Except.ok.injEq, Message.mk.injEq, Echo.mk.injEq, true_and, and_true]
  omega

/-- Claim C5 (counterexample): the zero-checksum `Marshal` variant — one of
the two `Marshal` implementations in the sources — encodes the all-zero
Echo message as eight zero bytes, whose recomputed one's-complement
checksum is `65535`, not `0`, and whose stored checksum field (0) differs
from the checksum of the zeroed message. -/
theorem zero_variant_checksum_cex :
    checksum (marshalZero 0 0 ⟨0, 0, []⟩) ≠ 0 ∧
      storedChecksum (marshalZero 0 0 ⟨0, 0, []⟩) ≠ checksum (marshalZero 0 0 ⟨0, 0, []⟩) := by
  have h : checksum (marshalZero 0 0 ⟨0, 0, []⟩) = 65535 := by
    rw [checksum, show sumWords (marshalZero 0 0 ⟨0, 0, []⟩) 0 = 0 from rfl, foldCarry]
    norm_num
  rw [h]
  exact ⟨by omega, by decide⟩

/-- Claim C5 (amended): for every message encoded by the
checksum-computing `Marshal` variant, recomputing the Internet
one's-complement checksum over the whole encoded message (stored checksum
included) yields 0, and the stored checksum field equals the checksum of
the message with a zeroed checksum field. -/
theorem marshal_checksum_folds_zero (typ code : Nat) (e : Echo) :
    checksum (marshalMessage typ code e) = 0 ∧
      storedChecksum (marshalMessage typ code e) = checksum (marshalZero typ code e) := by
  constructor
  · exact checksum_cons_insert (typ % 256) (code % 256) (echoMarshal e)
  · show checksum (marshalZero typ code e) / 256 * 256 +
        checksum (marshalZero typ code e) % 256 = checksum (marshalZero typ code e)
    omega

/-- Claim C8: `ParseMessage` succeeds exactly on inputs of length at least
8, fails with the too-short error exactly on shorter inputs, and its
result does not depend on the checksum field (bytes 2 and 3). -/
theorem parse_fails_iff_short_and_ignores_checksum :
    (∀ b : List Nat, (∃ m, ParseMessage b = Except.ok m) ↔ 8 ≤ b.length) ∧
      (∀ b : List Nat, b.length < 8 → ParseMessage b = Except.error CodecError.tooShort) ∧
      (∀ (t c x1 x2 y1 y2 : Nat) (tail : List Nat),
        ParseMessage (t :: c :: x1 :: x2 :: tail) =
          ParseMessage (t :: c :: y1 :: y2 :: tail)) := by
  refine ⟨?_, ?_, ?_⟩
  · intro b
    rcases b with _ | ⟨a0, _ | ⟨a1, _ | ⟨a2, _ | ⟨a3, _ | ⟨a4, _ | ⟨a5, _ | ⟨a6, _ | ⟨a7, rest⟩⟩⟩⟩⟩⟩⟩⟩ <;>
      simp [ParseMessage]
  · intro b hb
    rcases b with _ | ⟨a0, _ | ⟨a1, _ | ⟨a2, _ | ⟨a3, _ | ⟨a4, _ | ⟨a5, _ | ⟨a6, _ | ⟨a7, rest⟩⟩⟩⟩⟩⟩⟩⟩ <;>
      first
        | rfl
        | (simp at hb; omega)
  · intro t c x1 x2 y1 y2 tail
    rcases tail with _ | ⟨b4, _ | ⟨b5, _ | ⟨b6, _ | ⟨b7, r⟩⟩⟩⟩ <;> rfl

/-- Witness for claim C8 at a concrete short input. -/
theorem parse_fails_iff_short_witness :
    ([] : List Nat).length < 8 ∧ ParseMessage [] = Except.error CodecError.tooShort :=
  ⟨by norm_num, parse_fails_iff_short_and_ignores_checksum.2.1 [] (by norm_num)⟩

/-- Claim C9: for every valid Echo message (kind Request 8 or Reply 0,
code 0, identifier and sequence below `2^16`, any payload), decoding the
encoding recovers the message exactly. -/
theorem decode_encode_roundtrip (typ code id seq : Nat) (data : List Nat)
    (htyp : typ = 0 ∨ typ = 8) (hcode : code = 0) (hid : id < 65536)
    (hseq : seq < 65536) :
    ParseMessage (marshalMessage typ code ⟨id, seq, data⟩) =
      Except.ok ⟨typ, code, ⟨id, seq, data⟩⟩ := by
  rw [parseMessage_marshalMessage]
  have h1 : typ % 256 = typ := by rcases htyp with h | h <;> subst h <;> rfl
  have h2 : code % 256 = code := by subst hcode; rfl
  rw [h1, h2, Nat.mod_eq_of_lt hid, Nat.mod_eq_of_lt hseq]

/-- Witness for claim C9 at a concrete valid Echo Request. -/
theorem decode_encode_roundtrip_witness :
    ((8 : Nat) = 0 ∨ (8 : Nat) = 8) ∧ (0 : Nat) = 0 ∧ (1 : Nat) < 65536 ∧
      (2 : Nat) < 65536 ∧
      ParseMessage (marshalMessage 8 0 ⟨1, 2, [3]⟩) =
        Except.ok ⟨8, 0, ⟨1, 2, [3]⟩⟩ :=
  ⟨Or.inr rfl, rfl, by norm_num, by norm_num,
    decode_encode_roundtrip 8 0 1 2 [3] (Or.inr rfl) rfl (by norm_num) (by norm_num)⟩

/-! ## Session table and identifier allocation (`client/main.go`)

`responseMap` guards `map[int]chan *icmp.Echo` with a read/write mutex;
the shallow model is a function from identifiers to an optional abstract
channel token (the mutex only serializes accesses and has no sequential
content). -/

/-- Session table: identifier to optional inbox handle, mirroring
`responseMap.m : map[int]chan *icmp.Echo`. -/
abbrev SessionTable := Nat → Option Nat

/-- Mirrors `responseMap.Get`. -/
def tableGet (t : SessionTable) (id : Nat) : Option Nat := t id

/-- Mirrors `responseMap.Set`: unconditional insert, overwriting any entry
already stored for `id`. -/
def tableSet (t : SessionTable) (id ch : Nat) : SessionTable :=
  fun k => if k = id then some ch else t k

/-- Mirrors `responseMap.Delete`. -/
def tableDelete (t : SessionTable) (id : Nat) : SessionTable :=
  fun k => if k = id then none else t k

/-- Mirrors the identifier allocation in `handleHTTPProxyRequest`:
`requestID := int(time.Now().UnixNano() & 0xffff)` — the low 16 bits of
the current Unix-nanosecond timestamp (`& 0xffff` is reduction modulo
`2^16` on the non-negative `int64` values `UnixNano` returns). No session
table is consulted. -/
def allocateRequestID (nowUnixNano : Nat) : Nat := nowUnixNano % 65536

/-- Claim C4 (counterexample): two allocations whose timestamps differ by
`2^16` nanoseconds receive the same identifier, and at the moment the
second session registers, its identifier is already present in the table
(mapped to the first session's inbox, token 7 here). -/
theorem allocate_id_collision_cex :
    allocateRequestID 0 = allocateRequestID 65536 ∧ (0 : Nat) ≠ 65536 ∧
      tableGet (tableSet (fun _ => none) (allocateRequestID 0) 7)
        (allocateRequestID 65536) = some 7 := ⟨rfl, by omega, rfl⟩

/-- Claim C4 (amended): the initiator's identifier is the low 16 bits of
the allocation timestamp with no check against the session table — two
allocations collide exactly when their timestamps are congruent modulo
`2^16` — and registration unconditionally overwrites whatever inbox the
table already holds for that identifier. -/
theorem allocate_id_mod_timestamp :
    (∀ t1 t2 : Nat,
        allocateRequestID t1 = allocateRequestID t2 ↔ t1 % 65536 = t2 % 65536) ∧
      (∀ (tbl : SessionTable) (id ch : Nat), tableGet (tableSet tbl id ch) id = some ch) :=
  ⟨fun _ _ => Iff.rfl, fun tbl id ch => by simp [tableGet, tableSet]⟩

/-! ## Initiator request flow (`sendICMPRequest`) -/

/-- Environment of one `sendICMPRequest` call: whether `ResolveIPAddr`
succeeds, whether the socket write succeeds, and the reply fragments the
inbox delivers before the 30 s timeout would fire. `Marshal` cannot fail
on this path (its only error is a nil body, and the body is always an
`Echo`). -/
structure SendEvents where
  resolveOk : Bool
  writeOk : Bool
  delivered : List Echo

/-- Result of a `sendICMPRequest` call: response bytes or one of its error
returns (resolve failure, write failure, timeout). -/
inductive SendResult where
  | success : List Nat → SendResult
  | resolveErr : SendResult
  | writeErr : SendResult
  | timeoutErr : SendResult

/-- Mirrors the control flow of `sendICMPRequest`: resolve the responder
address (failing before any registration), register the inbox under the
request id (`respChannels.Set` plus `defer respChannels.Delete`), write
the Echo Request, then run the reassembly loop; the deferred delete runs
on every path after registration. Returns the call result and the final
session table. -/
def sendICMPRequestRun (tbl : SessionTable) (requestID ch : Nat) (ev : SendEvents) :
    SendResult × SessionTable :=
  if ev.resolveOk = false then (SendResult.resolveErr, tbl)
  else
    let tbl1 := tableSet tbl requestID ch
    if ev.writeOk = false then (SendResult.writeErr, tableDelete tbl1 requestID)
    else
      match reassembleLoop ev.delivered [] with
      | some bytes => (SendResult.success bytes, tableDelete tbl1 requestID)
      | none => (SendResult.timeoutErr, tableDelete tbl1 requestID)

/-- Claim C7: on every exit path of `sendICMPRequest` — success, timeout,
and each error return — the request id is not registered in the session
table after the call returns (given that, as the claim presumes, the id
was not registered by someone else before the call; on every path that
registers at all, the deferred delete removes it unconditionally). -/
theorem send_request_unregisters (tbl : SessionTable) (requestID ch : Nat)
    (ev : SendEvents) (h : tableGet tbl requestID = none) :
    tableGet (sendICMPRequestRun tbl requestID ch ev).2 requestID = none := by
  unfold sendICMPRequestRun
  split
  · exact h
  · split
    · simp [tableGet, tableDelete]
    · split <;> simp [tableGet, tableDelete]

/-- Witness for claim C7: a concrete call (empty table, no deliveries,
i.e. the timeout path) leaves id 3 unregistered. -/
theorem send_request_unregisters_witness :
    tableGet (fun _ => none) 3 = none ∧
      tableGet (sendICMPRequestRun (fun _ => none) 3 0 ⟨true, true, []⟩).2 3 = none :=
  ⟨rfl, send_request_unregisters _ 3 0 _ rfl⟩

/-! ## Dispatcher loop (`listenForICMPResponses`)

The reply channel `make(chan *icmp.Echo, 100)` is a bounded queue; the
dispatcher's `ch <- reply` is an unguarded blocking send. A send into a
full queue is modelled as a disabled step (`none`): the dispatcher blocks
and processes nothing further until the consumer frees a slot (which, in
a run where the consumer is not draining, is never). -/

/-- Capacity of a session inbox: `make(chan *icmp.Echo, 100)`. -/
def inboxCapacity : Nat := 100

/-- The channel send `ch <- reply` on the bounded inbox: enabled (and
appends) when the buffer has room, disabled (`none`, producer blocks)
when the buffer is full. Nothing is ever dropped. -/
def chanSend (inbox : List Echo) (e : Echo) : Option (List Echo) :=
  if inbox.length < inboxCapacity then some (inbox ++ [e]) else none

/-- Lookup of a session inbox by identifier (the dispatcher's
`respChannels.Get(reply.ID)`), over an association-list view of the
table's live sessions. -/
def lookupInbox : List (Nat × List Echo) → Nat → Option (List Echo)
  | [], _ => none
  | (k, v) :: rest, id => if k = id then some v else lookupInbox rest id

/-- Replace the inbox stored for `id` (effect of a completed channel
send on the session's queue). -/
def updateInbox (st : List (Nat × List Echo)) (id : Nat) (inbox : List Echo) :
    List (Nat × List Echo) :=
  st.map fun p => if p.1 = id then (p.1, inbox) else p

/-- One iteration of `listenForICMPResponses` on a received packet
`(sourceAddr, raw)`: parse (drop on failure), accept only type 0 (Echo
Reply), route by the identifier field alone, and send into the found
session's inbox. The source address is received but never consulted
(the Go code uses `addr` only in a log line). `none` means the blocking
send is not enabled — the dispatcher is stuck on a full inbox. -/
def listenStep (st : List (Nat × List Echo)) (_sourceAddr : Nat) (raw : List Nat) :
    Option (List (Nat × List Echo)) :=
  match ParseMessage raw with
  | Except.error _ => some st
  | Except.ok m =>
    if m.type = 0 then
      match lookupInbox st m.echo.id with
      | none => some st
      | some inbox =>
        match chanSend inbox m.echo with
        | none => none
        | some inbox2 => some (updateInbox st m.echo.id inbox2)
    else some st

/-- A dispatcher run over a list of delivered packets (source address and
raw bytes); a disabled step (blocking send) stops the run with the state
reached so far. -/
def listenRun : List (Nat × List Nat) → List (Nat × List Echo) → List (Nat × List Echo)
  | [], st => st
  | (a, raw) :: rest, st =>
    match listenStep st a raw with
    | none => st
    | some st2 => listenRun rest st2

/-- Claim C6 (counterexample): delivering a fragment to a session whose
inbox holds `inboxCapacity` items does not complete with the inbox
unchanged (the claim's "fragment dropped, producer does not block");
the send is disabled — the dispatcher blocks. -/
theorem full_inbox_send_not_drop_cex :
    chanSend (List.replicate inboxCapacity (Echo.mk 1 1 [0])) ⟨1, 2, [5]⟩ = none ∧
      chanSend (List.replicate inboxCapacity (Echo.mk 1 1 [0])) ⟨1, 2, [5]⟩ ≠
        some (List.replicate inboxCapacity (Echo.mk 1 1 [0])) := by
  constructor
  · simp [chanSend]
  · simp [chanSend]

/-- Claim C6 (amended): when a reply fragment is routed to a session whose
inbox is full, the dispatcher's unguarded channel send blocks instead of
dropping: the fragment is not discarded, and no later packet (for any
session) is processed while the send is pending. -/
theorem full_inbox_blocks (st : List (Nat × List Echo)) (a id seq : Nat)
    (d : List Nat) (rest : List (Nat × List Nat)) (inbox : List Echo)
    (hlk : lookupInbox st id = some inbox) (hfull : inboxCapacity ≤ inbox.length)
    (hid : id < 65536) :
    listenRun ((a, marshalMessage 0 0 ⟨id, seq, d⟩) :: rest) st = st := by
  have hstep : listenStep st a (marshalMessage 0 0 ⟨id, seq, d⟩) = none := by
    unfold listenStep
    rw [parseMessage_marshalMessage]
    simp [Nat.mod_eq_of_lt hid, hlk, chanSend]
    rw [if_neg (by omega : ¬ inbox.length < inboxCapacity)]
  simp only [listenRun, hstep]

/-- Witness for the amended claim C6: with session 5's inbox full, neither
the fragment addressed to session 5 nor the following fragment addressed
to session 6 is delivered. -/
theorem full_inbox_blocks_witness :
    lookupInbox [(5, List.replicate inboxCapacity (Echo.mk 5 1 [0])), (6, [])] 5 =
        some (List.replicate inboxCapacity (Echo.mk 5 1 [0])) ∧
      inboxCapacity ≤ (List.replicate inboxCapacity (Echo.mk 5 1 [0])).length ∧
      (5 : Nat) < 65536 ∧
      listenRun [(0, marshalMessage 0 0 ⟨5, 1, [7]⟩), (0, marshalMessage 0 0 ⟨6, 1, [9]⟩)]
          [(5, List.replicate inboxCapacity (Echo.mk 5 1 [0])), (6, [])] =
        [(5, List.replicate inboxCapacity (Echo.mk 5 1 [0])), (6, [])] :=
  ⟨rfl, by simp, by norm_num,
    full_inbox_blocks _ _ _ _ _ _ _ rfl (by simp) (by norm_num)⟩

/-- Claim C10: the dispatcher routes an inbound packet using only its
parsed type and identifier fields — the source address has no influence —
so two delivery runs that differ only in source addresses produce the
same final session states and the same reassembled response for every
session. -/
theorem dispatch_ignores_source_address :
    (∀ (st : List (Nat × List Echo)) (a1 a2 : Nat) (raw : List Nat),
        listenStep st a1 raw = listenStep st a2 raw) ∧
      ∀ (p1 p2 : List (Nat × List Nat)) (st : List (Nat × List Echo)),
        p1.map Prod.snd = p2.map Prod.snd →
          listenRun p1 st = listenRun p2 st ∧
            (listenRun p1 st).map (fun s => (s.1, reassembleLoop s.2 [])) =
              (listenRun p2 st).map (fun s => (s.1, reassembleLoop s.2 [])) := by
  have hrun : ∀ (p1 p2 : List (Nat × List Nat)) (st : List (Nat × List Echo)),
      p1.map Prod.snd = p2.map Prod.snd → listenRun p1 st = listenRun p2 st := by
    intro p1
    induction p1 with
    | nil =>
      intro p2 st h
      cases p2 with
      | nil => rfl
      | cons q t => simp at h
    | cons q t ih =>
      intro p2 st h
      cases p2 with
      | nil => simp at h
      | cons q2 t2 =>
        obtain ⟨a, raw⟩ := q
        obtain ⟨a2, raw2⟩ := q2
        simp only [List.map_cons, List.cons.injEq] at h
        obtain ⟨hr, ht⟩ := h
        cases hr
        show (match listenStep st a raw with
              | none => st
              | some st2 => listenRun t st2) =
            (match listenStep st a2 raw with
              | none => st
              | some st2 => listenRun t2 st2)
        have hsame : listenStep st a raw = listenStep st a2 raw := rfl
        rw [hsame]
        cases listenStep st a2 raw with
        | none => rfl
        | some st2 => exact ih t2 st2 ht
  refine ⟨fun _ _ _ _ => rfl, fun p1 p2 st h => ⟨hrun p1 p2 st h, by rw [hrun p1 p2 st h]⟩⟩

/-- Witness for claim C10: the same reply bytes delivered from source
address 10 and from source address 20 produce the same final state. -/
theorem dispatch_ignores_source_address_witness :
    ([((10 : Nat), marshalMessage 0 0 ⟨1, 1, [9]⟩)].map Prod.snd =
        [((20 : Nat), marshalMessage 0 0 ⟨1, 1, [9]⟩)].map Prod.snd) ∧
      listenRun [(10, marshalMessage 0 0 ⟨1, 1, [9]⟩)] [(1, [])] =
        listenRun [(20, marshalMessage 0 0 ⟨1, 1, [9]⟩)] [(1, [])] :=
  ⟨rfl, (dispatch_ignores_source_address.2 _ _ _ rfl).1⟩

end IcmpProxy
